import Mathlib

/-!
Verification of the VerTac cycle-monitoring core against its specification.

The development shallowly embeds the Python sources:
* `backend/services/cycle_state_machine.py` — per-stream cycle state machine,
  embedded as a pure transition function over an explicit machine record with
  time passed in as a rational parameter (each Python `datetime.utcnow()` call
  inside one `transition` call observes the same instant, modelled by the single
  `now` argument; `uuid.uuid4()` cycle ids are modelled by the fresh value of
  the incremented cycle counter).
* `edge-connector/connector.py` — the resilience buffer: `send_batch`,
  the read-loop body and the buffered-retry sweep, with network outcomes
  supplied as an explicit oracle `Nat → SendOutcome`.
* `backend/app/services/analysis_service.py` — correlation-family detectors
  over `ℝ`; `np.corrcoef` is embedded by its defining formula and returns
  `none` exactly when a variance term is zero (the NaN case in NumPy).
* `backend/services/deviation_analyzer.py` — distance-family detectors; the
  DTW dynamic-programming matrix lives in `EReal` so that the `np.inf`
  initialisation of unreachable cells is represented exactly.
-/

namespace VerTac

/-! ## Cycle state machine (`backend/services/cycle_state_machine.py`) -/

/-- `CycleState` enum of `cycle_state_machine.py`. -/
inductive CycleState
  | idle
  | waiting_start
  | active
  | stopping
  | stopped
  | aborted
deriving DecidableEq, Repr

/-- `CycleEvent` enum of `cycle_state_machine.py`. -/
inductive CycleEvent
  | register_stream
  | cycle_start
  | cycle_stop
  | cycle_pause
  | cycle_resume
  | sample_received
  | connection_lost
  | timeout
  | manual_abort
deriving DecidableEq, Repr

/-- `CycleMetadata` dataclass.  Timestamps are rationals; the uuid4 cycle id is
modelled by the value of the incremented per-stream cycle counter. -/
structure CycleMetadata where
  cycle_id : Nat
  stream_id : String
  dataset_id : String
  cycle_number : Nat
  start_time : ℚ
  end_time : Option ℚ := none
  sample_count : Nat := 0
  is_reference : Bool := false
  health_score : Option ℚ := none
  anomaly_flag : Bool := false
  abort_reason : Option String := none
  custom_metadata : List (String × String) := []
deriving DecidableEq, Repr

/-- `CycleStateMachine.GRACE_PERIOD_SEC`. -/
def GRACE_PERIOD_SEC : ℚ := 10

/-- `CycleStateMachine.SAMPLE_TIMEOUT_SEC`. -/
def SAMPLE_TIMEOUT_SEC : ℚ := 30

/-- The mutable fields of a `CycleStateMachine` instance. -/
structure CycleStateMachine where
  stream_id : String
  dataset_id : String
  state : CycleState := .idle
  current_cycle : Option CycleMetadata := none
  cycle_counter : Nat := 0
  last_sample_time : Option ℚ := none
  stop_time : Option ℚ := none
deriving DecidableEq, Repr

/-- What one `transition` call communicates to the outside world: the
state-change callback payload (old state, new state, current cycle id), the
cycle-complete callback payload, and the returned boolean. -/
structure TransitionOutput where
  state_change : Option (CycleState × CycleState × Option Nat)
  completed : Option CycleMetadata
  result : Bool
deriving DecidableEq, Repr

/-- Output of a call that changed nothing and fired no callback. -/
def silentOutput : TransitionOutput :=
  { state_change := none, completed := none, result := true }

/-- Python dict assignment `d[k] = v` on the `custom_metadata` dict. -/
def set_meta (l : List (String × String)) (k v : String) : List (String × String) :=
  (k, v) :: l.filter (fun p => p.1 ≠ k)

/-- Python `d.pop(k, None)` on the `custom_metadata` dict. -/
def pop_meta (l : List (String × String)) (k : String) : List (String × String) :=
  l.filter (fun p => p.1 ≠ k)

/-- `CycleStateMachine._grace_period_elapsed` (elapsed `>= GRACE_PERIOD_SEC`). -/
def grace_period_elapsed (m : CycleStateMachine) (now : ℚ) : Bool :=
  match m.stop_time with
  | none => false
  | some t => GRACE_PERIOD_SEC ≤ now - t

/-- `CycleStateMachine._start_new_cycle`. -/
def start_new_cycle (m : CycleStateMachine) (now : ℚ)
    (metadata : List (String × String)) : CycleStateMachine :=
  { m with
    cycle_counter := m.cycle_counter + 1,
    current_cycle := some
      { cycle_id := m.cycle_counter + 1
        stream_id := m.stream_id
        dataset_id := m.dataset_id
        cycle_number := m.cycle_counter + 1
        start_time := now
        custom_metadata := metadata },
    last_sample_time := some now }

/-- `CycleStateMachine._complete_cycle`: set `end_time` and return the
finalized cycle handed to the completion callback (if a cycle exists). -/
def complete_cycle (m : CycleStateMachine) (now : ℚ) :
    CycleStateMachine × Option CycleMetadata :=
  match m.current_cycle with
  | none => (m, none)
  | some c =>
      let fin := { c with end_time := some now }
      ({ m with current_cycle := some fin }, some fin)

/-- `CycleStateMachine.transition`, with `datetime.utcnow()` modelled by the
`now` argument and the two callbacks modelled by the returned
`TransitionOutput`. -/
def transition (m : CycleStateMachine) (event : CycleEvent) (now : ℚ)
    (metadata : List (String × String)) : CycleStateMachine × TransitionOutput :=
  let step : CycleStateMachine × Option CycleMetadata :=
    match event with
    | .register_stream =>
        if m.state = .idle then ({ m with state := .waiting_start }, none)
        else (m, none)
    | .cycle_start =>
        if m.state = .waiting_start ∨ m.state = .stopped ∨ m.state = .aborted then
          (start_new_cycle { m with state := .active } now metadata, none)
        else (m, none)
    | .cycle_stop =>
        if m.state = .active then
          ({ m with state := .stopping, stop_time := some now }, none)
        else (m, none)
    | .cycle_pause =>
        if m.state = .active then
          (match m.current_cycle with
           | some c =>
              let md2 := set_meta c.custom_metadata "paused_at" (toString now)
              let c2 := { c with custom_metadata := md2 }
              ({ m with current_cycle := some c2 }, none)
           | none => (m, none))
        else (m, none)
    | .cycle_resume =>
        if m.state = .active then
          (match m.current_cycle with
           | some c =>
              let md2 := pop_meta c.custom_metadata "paused_at"
              let c2 := { c with custom_metadata := md2 }
              ({ m with current_cycle := some c2 }, none)
           | none => (m, none))
        else (m, none)
    | .sample_received =>
        if m.state = .active then
          let m1 := { m with last_sample_time := some now }
          let m2 := match m1.current_cycle with
            | some c =>
                let c2 := { c with sample_count := c.sample_count + 1 }
                { m1 with current_cycle := some c2 }
            | none => m1
          (m2, none)
        else if m.state = .stopping then
          let m1 := { m with last_sample_time := some now }
          let m2 := match m1.current_cycle with
            | some c =>
                let c2 := { c with sample_count := c.sample_count + 1 }
                { m1 with current_cycle := some c2 }
            | none => m1
          if grace_period_elapsed m2 now then
            complete_cycle { m2 with state := .stopped } now
          else (m2, none)
        else (m, none)
    | .timeout =>
        if m.state = .active then
          let m1 := { m with state := CycleState.aborted }
          let m2 := match m1.current_cycle with
            | some c =>
                let c2 := { c with abort_reason := some "sample_timeout" }
                { m1 with current_cycle := some c2 }
            | none => m1
          complete_cycle m2 now
        else if m.state = .stopping then
          if grace_period_elapsed m now then
            complete_cycle { m with state := .stopped } now
          else (m, none)
        else (m, none)
    | .connection_lost =>
        if m.state = .active ∨ m.state = .stopping then
          let m1 := { m with state := CycleState.aborted }
          let m2 := match m1.current_cycle with
            | some c =>
                let c2 := { c with abort_reason := some "connection_lost" }
                { m1 with current_cycle := some c2 }
            | none => m1
          complete_cycle m2 now
        else (m, none)
    | .manual_abort =>
        if m.state = .active ∨ m.state = .stopping then
          let m1 := { m with state := CycleState.aborted }
          let m2 := match m1.current_cycle with
            | some c =>
                let c2 := { c with abort_reason := some "manual_abort" }
                { m1 with current_cycle := some c2 }
            | none => m1
          complete_cycle m2 now
        else (m, none)
  let m2 := step.1
  let change : Option (CycleState × CycleState × Option Nat) :=
    if m.state ≠ m2.state then
      some (m.state, m2.state, m2.current_cycle.map (fun c => c.cycle_id))
    else none
  (m2, { state_change := change, completed := step.2, result := true })

/-- `CycleStateMachine.check_sample_timeout` (the periodic liveness tick). -/
def check_sample_timeout (m : CycleStateMachine) (now : ℚ) :
    CycleStateMachine × TransitionOutput :=
  if m.state = .active then
    match m.last_sample_time with
    | some t =>
        if SAMPLE_TIMEOUT_SEC < now - t then transition m .timeout now []
        else (m, silentOutput)
    | none => (m, silentOutput)
  else if m.state = .stopping then
    if grace_period_elapsed m now then transition m .timeout now []
    else (m, silentOutput)
  else (m, silentOutput)

/-- The (event, state) pairs the §4.1 transition table lists as valid. -/
def specValidPair : CycleEvent → CycleState → Bool
  | .register_stream, .idle => true
  | .cycle_start, .waiting_start => true
  | .cycle_start, .stopped => true
  | .cycle_start, .aborted => true
  | .sample_received, .active => true
  | .sample_received, .stopping => true
  | .cycle_stop, .active => true
  | .cycle_pause, .active => true
  | .cycle_resume, .active => true
  | .timeout, .active => true
  | .timeout, .stopping => true
  | .connection_lost, .active => true
  | .connection_lost, .stopping => true
  | .manual_abort, .active => true
  | .manual_abort, .stopping => true
  | _, _ => false

/-- Shared helper: any (event, state) pair outside the §4.1 table leaves the
machine untouched and fires no callback. -/
theorem transition_invalid_noop (m : CycleStateMachine) (e : CycleEvent) (now : ℚ)
    (md : List (String × String)) (h : specValidPair e m.state = false) :
    transition m e now md = (m, silentOutput) := by
  rcases hs : m.state <;> cases e <;>
    simp_all [transition, specValidPair, silentOutput]

/-- C3: every (event, state) pair not listed as valid in the §4.1 transition
table is a silent no-op: `transition` leaves the whole machine (state, current
cycle, sample count) unchanged, fires neither the state-change callback nor the
cycle-complete callback, and still returns `True`. -/
theorem invalid_pair_silent_noop (m : CycleStateMachine) (e : CycleEvent) (now : ℚ)
    (md : List (String × String)) (h : specValidPair e m.state = false) :
    transition m e now md = (m, silentOutput) :=
  transition_invalid_noop m e now md h

/-- Witness for C3: `CYCLE_STOP` in state `IDLE` is not in the table and is a
silent no-op on a concrete machine. -/
theorem invalid_pair_silent_noop_witness :
    transition { stream_id := "s1", dataset_id := "d1" } .cycle_stop 7 [] =
      ({ stream_id := "s1", dataset_id := "d1" }, silentOutput) :=
  invalid_pair_silent_noop { stream_id := "s1", dataset_id := "d1" } .cycle_stop 7 []
    (by decide)

/-! ### C4: the completion callback cannot re-fire after STOPPED/ABORTED -/

/-- A step of the machine as driven by the service: either a `transition` call
or one periodic `check_sample_timeout` tick. -/
inductive MachineStep
  | ev (e : CycleEvent) (now : ℚ) (md : List (String × String))
  | tick (now : ℚ)
deriving DecidableEq, Repr

/-- Whether a step is a `CYCLE_START` transition (the only step that begins a
new cycle). -/
def is_cycle_start : MachineStep → Bool
  | .ev .cycle_start _ _ => true
  | _ => false

/-- Apply one step to the machine. -/
def apply_step (m : CycleStateMachine) : MachineStep → CycleStateMachine × TransitionOutput
  | .ev e now md => transition m e now md
  | .tick now => check_sample_timeout m now

/-- Run a list of steps, counting how many times the cycle-complete callback
fires. -/
def run_steps : CycleStateMachine → List MachineStep → CycleStateMachine × Nat
  | m, [] => (m, 0)
  | m, s :: rest =>
      let r := apply_step m s
      let rr := run_steps r.1 rest
      (rr.1, (if r.2.completed.isSome then 1 else 0) + rr.2)

/-- From STOPPED or ABORTED, any step other than `CYCLE_START` leaves the
machine untouched and fires nothing.  (From those states only `CYCLE_START`
is in the §4.1 table, and `check_sample_timeout` only acts in ACTIVE or
STOPPING.) -/
theorem apply_step_terminal_noop (m : CycleStateMachine)
    (hm : m.state = .stopped ∨ m.state = .aborted) (s : MachineStep)
    (hs : is_cycle_start s = false) : apply_step m s = (m, silentOutput) := by
  cases s with
  | ev e now md =>
      simp only [apply_step]
      refine transition_invalid_noop m e now md ?_
      rcases hm with hm | hm <;> rw [hm] <;> cases e <;>
        simp_all [specValidPair, is_cycle_start]
  | tick now =>
      rcases hm with hm | hm <;>
        simp [apply_step, check_sample_timeout, hm]

/-- C4: once the machine has reached `STOPPED` or `ABORTED`, no sequence of
further `transition` calls and periodic `check_sample_timeout` ticks that does
not contain a `CYCLE_START` ever fires the cycle-complete (finalize) callback
again — the machine stays exactly as it is.  Hence the callback fires at most
once per allocated cycle. -/
theorem finalize_at_most_once (m : CycleStateMachine)
    (hm : m.state = .stopped ∨ m.state = .aborted) (steps : List MachineStep)
    (hsteps : ∀ s ∈ steps, is_cycle_start s = false) :
    (run_steps m steps).2 = 0 ∧ (run_steps m steps).1 = m := by
  induction steps with
  | nil => simp [run_steps]
  | cons s rest ih =>
      have hstep : apply_step m s = (m, silentOutput) :=
        apply_step_terminal_noop m hm s (hsteps s (by simp))
      have hrest := ih (fun t ht => hsteps t (by simp [ht]))
      simp [run_steps, hstep, hrest.1, hrest.2, silentOutput]

/-- Witness for C4: a machine sitting in `STOPPED` is left untouched, with zero
completion callbacks, by a timeout event, a tick and a late sample. -/
theorem finalize_at_most_once_witness :
    (run_steps { stream_id := "s1", dataset_id := "d1", state := .stopped }
      [.ev .timeout 100 [], .tick 200, .ev .sample_received 300 []]).2 = 0 ∧
    (run_steps { stream_id := "s1", dataset_id := "d1", state := .stopped }
      [.ev .timeout 100 [], .tick 200, .ev .sample_received 300 []]).1 =
      { stream_id := "s1", dataset_id := "d1", state := .stopped } :=
  finalize_at_most_once { stream_id := "s1", dataset_id := "d1", state := .stopped }
    (Or.inl rfl)
    [.ev .timeout 100 [], .tick 200, .ev .sample_received 300 []]
    (by decide)

/-! ## Edge connector resilience buffer (`edge-connector/connector.py`) -/

/-- `SensorReading` (pydantic model). -/
structure SensorReading where
  timestamp : String
  sensor_id : String
  sensor_name : String
  value : ℚ
  unit : String
  quality : ℚ := 1
deriving DecidableEq, Repr

/-- One row of the SQLite `samples` table of `LocalBuffer` (the durable
store); rows are kept in `created_at` order, i.e. insertion order. -/
structure BufferRow where
  reading : SensorReading
  acked : Bool
deriving DecidableEq, Repr

/-- `LocalBuffer.add_sample`: INSERT with `acked` defaulting to 0. -/
def add_sample (buffer : List BufferRow) (r : SensorReading) : List BufferRow :=
  buffer ++ [{ reading := r, acked := false }]

/-- `LocalBuffer.get_unacked_samples`: unacknowledged rows, oldest first,
bounded by `limit`. -/
def get_unacked_samples (buffer : List BufferRow) (limit : Nat) : List BufferRow :=
  (buffer.filter (fun row => row.acked = false)).take limit

/-- Outcome of one HTTP POST attempt inside `EdgeConnector.send_batch`:
HTTP 200, non-200 rejection, `asyncio.TimeoutError`, or any other exception. -/
inductive SendOutcome
  | ok
  | rejected
  | timeout_exc
  | transport_exc
deriving DecidableEq, Repr

/-- Whether the outcome takes one of the two `except` branches of
`send_batch` (timeout or transport error). -/
def is_retryable (o : SendOutcome) : Bool :=
  o = .timeout_exc ∨ o = .transport_exc

/-- Result of one `send_batch` call: the returned boolean, the durable buffer
after the call, how many HTTP attempts were made, and the list of back-off
sleeps performed (in order). -/
structure SendResult where
  success : Bool
  buffer : List BufferRow
  attempts : Nat
  delays : List ℚ
deriving DecidableEq, Repr

/-- The `while retry_count < self.retry_max_attempts` loop of
`EdgeConnector.send_batch`, with the attempt outcomes supplied by the oracle
`outcomes`.  On HTTP 200 it returns `True`; on a non-200 response it returns
`False` immediately (nothing is buffered); on a timeout or transport error it
retries after sleeping `backoff` (doubling it) while attempts remain; when the
loop exhausts `retry_max_attempts`, every reading is added to the durable
buffer unacknowledged and `False` is returned. -/
def send_batch_go (outcomes : Nat → SendOutcome) (max_attempts : Nat)
    (readings : List SensorReading) (buffer : List BufferRow)
    (retry_count : Nat) (backoff : ℚ) (delays : List ℚ) : SendResult :=
  if retry_count < max_attempts then
    match outcomes retry_count with
    | .ok =>
        { success := true, buffer := buffer, attempts := retry_count + 1, delays := delays }
    | .rejected =>
        { success := false, buffer := buffer, attempts := retry_count + 1, delays := delays }
    | _ =>
        if retry_count + 1 < max_attempts then
          send_batch_go outcomes max_attempts readings buffer
            (retry_count + 1) (backoff * 2) (delays ++ [backoff])
        else
          { success := false,
            buffer := readings.foldl add_sample buffer,
            attempts := retry_count + 1, delays := delays }
  else
    { success := false,
      buffer := readings.foldl add_sample buffer,
      attempts := retry_count, delays := delays }
termination_by max_attempts - retry_count
decreasing_by omega

/-- `EdgeConnector.send_batch`: returns `False` immediately when no stream is
registered, else runs the retry loop starting from `retry_backoff`. -/
def send_batch (stream_id : Option String) (outcomes : Nat → SendOutcome)
    (retry_max_attempts : Nat) (retry_backoff : ℚ)
    (readings : List SensorReading) (buffer : List BufferRow) : SendResult :=
  match stream_id with
  | none => { success := false, buffer := buffer, attempts := 0, delays := [] }
  | some _ => send_batch_go outcomes retry_max_attempts readings buffer 0 retry_backoff []

/-- The connector's in-memory state and configuration. -/
structure EdgeConnectorState where
  stream_id : Option String
  batch : List SensorReading
  buffer : List BufferRow
  last_flush : ℚ
  batch_size : Nat
  flush_interval : ℚ
  retry_max_attempts : Nat
  retry_backoff : ℚ
deriving DecidableEq, Repr

/-- `EdgeConnector.flush_batch`: if the in-memory batch is non-empty, copy it,
clear it, and send the copy. -/
def flush_batch (st : EdgeConnectorState) (outcomes : Nat → SendOutcome) :
    EdgeConnectorState :=
  if st.batch = [] then st
  else
    let r := send_batch st.stream_id outcomes st.retry_max_attempts st.retry_backoff
      st.batch st.buffer
    { st with batch := [], buffer := r.buffer }

/-- Result of one iteration of `EdgeConnector.read_loop`. -/
structure ReadStepResult where
  state : EdgeConnectorState
  flushed : Bool
deriving DecidableEq, Repr

/-- The flush condition of the read loop:
`len(self.batch) >= self.batch_size or elapsed >= self.flush_interval`,
evaluated after extending the batch. -/
def flush_condition (st : EdgeConnectorState) (readings : List SensorReading)
    (now : ℚ) : Prop :=
  st.batch_size ≤ (st.batch ++ readings).length ∨ st.flush_interval ≤ now - st.last_flush

instance (st : EdgeConnectorState) (readings : List SensorReading) (now : ℚ) :
    Decidable (flush_condition st readings now) := by
  unfold flush_condition; infer_instance

/-- One iteration of `EdgeConnector.read_loop`: extend the in-memory batch
with the freshly read samples, then flush if the batch is full or the flush
interval has elapsed (updating `last_flush` only in that case). -/
def read_loop_step (st : EdgeConnectorState) (readings : List SensorReading)
    (now : ℚ) (outcomes : Nat → SendOutcome) : ReadStepResult :=
  let st1 := { st with batch := st.batch ++ readings }
  if flush_condition st readings now then
    { state := { flush_batch st1 outcomes with last_flush := now }, flushed := true }
  else
    { state := st1, flushed := false }

/-- Unacknowledged row for a reading, as inserted by `add_sample`. -/
def unacked_row (r : SensorReading) : BufferRow := { reading := r, acked := false }

theorem foldl_add_sample (rs : List SensorReading) (buf : List BufferRow) :
    rs.foldl add_sample buf = buf ++ rs.map unacked_row := by
  induction rs generalizing buf with
  | nil => simp
  | cons r rs ih => simp [add_sample, ih, unacked_row]

/-- Prepending the current back-off to the doubled tail gives the geometric
back-off sequence. -/
theorem backoff_shift (b : ℚ) (n : ℕ) :
    b :: (List.range n).map (fun i => b * 2 * 2 ^ i) =
      (List.range (n + 1)).map (fun i => b * 2 ^ i) := by
  rw [List.range_succ_eq_map, List.map_cons, List.map_map]
  have hf : ((fun i => b * 2 ^ i) ∘ Nat.succ) = (fun i => b * 2 * 2 ^ i) := by
    funext i
    simp only [Function.comp, pow_succ]
    ring
  rw [hf]
  simp

/-- If every attempt the loop can make fails with a timeout or transport
error, `send_batch_go` makes exactly the remaining attempts, sleeping the
doubling back-off sequence, and finally buffers every reading unacknowledged. -/
theorem send_batch_go_all_fail (outcomes : Nat → SendOutcome) (maxA : Nat)
    (rs : List SensorReading) (buf : List BufferRow)
    (hfail : ∀ j, j < maxA → is_retryable (outcomes j) = true) :
    ∀ d k b ds, maxA - k = d → k ≤ maxA →
      send_batch_go outcomes maxA rs buf k b ds =
        { success := false,
          buffer := buf ++ rs.map unacked_row,
          attempts := maxA,
          delays := ds ++ (List.range (maxA - 1 - k)).map (fun i => b * 2 ^ i) } := by
  intro d
  induction d with
  | zero =>
      intro k b ds hd hk
      have hk2 : k = maxA := by omega
      rw [send_batch_go]
      simp [hk2, foldl_add_sample]
  | succ n ih =>
      intro k b ds hd hk
      have hklt : k < maxA := by omega
      have hret := hfail k hklt
      rw [send_batch_go, if_pos hklt]
      rcases ho : outcomes k with _ | _ | _ | _ <;>
        rw [ho] at hret <;> simp only [is_retryable] at hret
      · simp at hret
      · simp at hret
      all_goals {
        by_cases hnext : k + 1 < maxA
        · rw [if_pos hnext, ih (k + 1) (b * 2) (ds ++ [b]) (by omega) (by omega)]
          have hrange : maxA - 1 - k = (maxA - 1 - (k + 1)) + 1 := by omega
          rw [hrange, ← backoff_shift, List.append_assoc]
          rfl
        · rw [if_neg hnext]
          have hk2 : k + 1 = maxA := by omega
          have hrange : maxA - 1 - k = 0 := by omega
          simp [hk2, hrange, foldl_add_sample] }

/-- `send_batch_go` either leaves the durable buffer alone, or (exactly when
it exhausted the loop) appends every reading unacknowledged, returning `False`
after attempts that all failed with a timeout or transport error. -/
theorem send_batch_go_buffer_cases (outcomes : Nat → SendOutcome) (maxA : Nat)
    (rs : List SensorReading) (buf : List BufferRow) :
    ∀ d k b ds, maxA - k = d →
      (send_batch_go outcomes maxA rs buf k b ds).buffer = buf ∨
      ((send_batch_go outcomes maxA rs buf k b ds).buffer = buf ++ rs.map unacked_row ∧
        (send_batch_go outcomes maxA rs buf k b ds).success = false ∧
        ∀ j, k ≤ j → j < (send_batch_go outcomes maxA rs buf k b ds).attempts →
          is_retryable (outcomes j) = true) := by
  intro d
  induction d with
  | zero =>
      intro k b ds hd
      have hk : ¬ k < maxA := by omega
      rw [send_batch_go, if_neg hk]
      right
      refine ⟨by simp [foldl_add_sample], rfl, ?_⟩
      intro j hj1 hj2
      have hj2k : j < k := hj2
      omega
  | succ n ih =>
      intro k b ds hd
      have hklt : k < maxA := by omega
      rw [send_batch_go, if_pos hklt]
      rcases ho : outcomes k with _ | _ | _ | _
      · left; rfl
      · left; rfl
      all_goals {
        by_cases hnext : k + 1 < maxA
        · rw [if_pos hnext]
          rcases ih (k + 1) (b * 2) (ds ++ [b]) (by omega) with hcase | ⟨h1, h2, h3⟩
          · left; exact hcase
          · right
            refine ⟨h1, h2, ?_⟩
            intro j hj1 hj2
            rcases Nat.eq_or_lt_of_le hj1 with hj | hj
            · simp [← hj, ho, is_retryable]
            · exact h3 j hj hj2
        · rw [if_neg hnext]
          right
          refine ⟨by simp [foldl_add_sample], rfl, ?_⟩
          intro j hj1 hj2
          have hj2k : j < k + 1 := hj2
          have hjk : j = k := by omega
          simp [hjk, ho, is_retryable] }

/-- C2: when a registered stream's batch send fails every attempt with a
timeout or transport error, `send_batch` makes exactly `retry_max_attempts`
attempts, sleeping the back-off sequence `b0, 2·b0, 4·b0, …` between attempts,
returns `False`, and appends every reading of the batch to the durable store
as an unacknowledged row; if the store was previously empty (and the batch fits
the sweep's bound of 100), the next periodic sweep's query returns exactly
those readings. -/
theorem send_batch_all_failures_buffers_unacked (sid : String)
    (outcomes : Nat → SendOutcome) (maxA : Nat) (b0 : ℚ)
    (rs : List SensorReading) (buf : List BufferRow)
    (hfail : ∀ j, j < maxA → is_retryable (outcomes j) = true) :
    (send_batch (some sid) outcomes maxA b0 rs buf).success = false ∧
    (send_batch (some sid) outcomes maxA b0 rs buf).attempts = maxA ∧
    (send_batch (some sid) outcomes maxA b0 rs buf).delays =
      (List.range (maxA - 1)).map (fun i => b0 * 2 ^ i) ∧
    (send_batch (some sid) outcomes maxA b0 rs buf).buffer =
      buf ++ rs.map unacked_row ∧
    (buf = [] → rs.length ≤ 100 →
      get_unacked_samples (send_batch (some sid) outcomes maxA b0 rs buf).buffer 100 =
        rs.map unacked_row) := by
  have e : send_batch (some sid) outcomes maxA b0 rs buf =
      { success := false,
        buffer := buf ++ rs.map unacked_row,
        attempts := maxA,
        delays := [] ++ (List.range (maxA - 1 - 0)).map (fun i => b0 * 2 ^ i) } :=
    send_batch_go_all_fail outcomes maxA rs buf hfail (maxA - 0) 0 b0 [] rfl (by omega)
  rw [e]
  refine ⟨rfl, rfl, by simp, by simp, ?_⟩
  intro hbuf hlen
  subst hbuf
  simp only [List.nil_append, get_unacked_samples]
  rw [List.filter_eq_self.mpr, List.take_of_length_le (by simpa using hlen)]
  intro a ha
  rcases List.mem_map.mp ha with ⟨r, _, hr⟩
  simp [← hr, unacked_row]

/-- A concrete reading used by the connector witnesses. -/
def demo_reading : SensorReading :=
  { timestamp := "t0", sensor_id := "a", sensor_name := "a", value := 1, unit := "u" }

/-- Witness for C2: with 2 attempts that both time out, the single reading is
durably stored unacknowledged, the loop slept the initial back-off once and
the sweep query picks the row up. -/
theorem send_batch_all_failures_witness :
    (send_batch (some "s1") (fun _ => .timeout_exc) 2 2 [demo_reading] []).success = false ∧
    (send_batch (some "s1") (fun _ => .timeout_exc) 2 2 [demo_reading] []).attempts = 2 ∧
    (send_batch (some "s1") (fun _ => .timeout_exc) 2 2 [demo_reading] []).delays =
      (List.range 1).map (fun i => 2 * 2 ^ i) ∧
    (send_batch (some "s1") (fun _ => .timeout_exc) 2 2 [demo_reading] []).buffer =
      [] ++ [demo_reading].map unacked_row ∧
    ([] = ([] : List BufferRow) → [demo_reading].length ≤ 100 →
      get_unacked_samples
        (send_batch (some "s1") (fun _ => .timeout_exc) 2 2 [demo_reading] []).buffer 100 =
        [demo_reading].map unacked_row) :=
  send_batch_all_failures_buffers_unacked "s1" (fun _ => .timeout_exc) 2 2
    [demo_reading] [] (by decide)

/-- A concrete fresh connector state: registered stream, empty batch, empty
durable buffer, default configuration of `connector.py`. -/
def init_connector : EdgeConnectorState :=
  { stream_id := some "s1", batch := [], buffer := [], last_flush := 0,
    batch_size := 10, flush_interval := 1, retry_max_attempts := 5,
    retry_backoff := 2 }

/-- Counterexample to C1: a freshly arrived sample is only appended to the
in-memory batch; the durable local store stays empty after the read-loop
iteration (no flush was triggered, no send attempted), so the sample is NOT
appended to the durable store on arrival. -/
theorem sample_arrival_not_durable :
    (read_loop_step init_connector [demo_reading] 0 (fun _ => .ok)).state.buffer = [] ∧
    (read_loop_step init_connector [demo_reading] 0 (fun _ => .ok)).state.batch =
      [demo_reading] ∧
    (read_loop_step init_connector [demo_reading] 0 (fun _ => .ok)).flushed = false := by
  refine ⟨?_, ?_, ?_⟩ <;>
    norm_num [read_loop_step, init_connector, flush_condition, demo_reading]

/-- C1 (amended): a sample arriving in the read loop is appended to the
in-memory batch only — when the flush condition does not hold, the durable
buffer is untouched and no send is attempted; the durable store receives
readings exactly when a `send_batch` call for their batch runs out of
attempts, every attempt having failed with a timeout or transport error
(an HTTP-200 or a non-200 rejection leaves the durable store unchanged, the
rejected batch being dropped). -/
theorem arrival_buffers_in_memory_only (st : EdgeConnectorState)
    (readings : List SensorReading) (now : ℚ) (outcomes : Nat → SendOutcome)
    (hnoflush : ¬ flush_condition st readings now)
    (sid : Option String) (maxA : Nat) (b0 : ℚ)
    (rs : List SensorReading) (buf : List BufferRow) :
    read_loop_step st readings now outcomes =
      { state := { st with batch := st.batch ++ readings }, flushed := false } ∧
    ((send_batch sid outcomes maxA b0 rs buf).buffer = buf ∨
      ((send_batch sid outcomes maxA b0 rs buf).buffer = buf ++ rs.map unacked_row ∧
        (send_batch sid outcomes maxA b0 rs buf).success = false ∧
        ∀ j, j < (send_batch sid outcomes maxA b0 rs buf).attempts →
          is_retryable (outcomes j) = true)) := by
  constructor
  · simp [read_loop_step, hnoflush]
  · match sid with
    | none => exact Or.inl rfl
    | some s =>
        have h := send_batch_go_buffer_cases outcomes maxA rs buf (maxA - 0) 0 b0 [] rfl
        rcases h with h | ⟨h1, h2, h3⟩
        · exact Or.inl h
        · exact Or.inr ⟨h1, h2, fun j hj => h3 j (Nat.zero_le j) hj⟩

/-- Witness for C1 (amended): concrete no-flush arrival plus a concrete
send on an unregistered stream. -/
theorem arrival_buffers_in_memory_only_witness :
    read_loop_step init_connector [demo_reading] 0 (fun _ => .ok) =
      { state := { init_connector with batch := init_connector.batch ++ [demo_reading] },
        flushed := false } ∧
    ((send_batch none (fun _ => .ok) 5 2 [demo_reading] []).buffer = [] ∨
      ((send_batch none (fun _ => .ok) 5 2 [demo_reading] []).buffer =
          [] ++ [demo_reading].map unacked_row ∧
        (send_batch none (fun _ => .ok) 5 2 [demo_reading] []).success = false ∧
        ∀ j, j < (send_batch none (fun _ => .ok) 5 2 [demo_reading] []).attempts →
          is_retryable ((fun _ => SendOutcome.ok) j) = true)) :=
  arrival_buffers_in_memory_only init_connector [demo_reading] 0 (fun _ => .ok)
    (by simp [flush_condition, init_connector]) none 5 2 [demo_reading] []

/-! ## Correlation-family detectors (`backend/app/services/analysis_service.py`)

Embedded over `ℝ`.  `np.corrcoef(x, y)[0, 1]` is embedded by its defining
formula `Σ dx·dy / sqrt(Σ dx² · Σ dy²)`; it returns `none` exactly when one of
the variance terms is zero, which is the case in which NumPy emits NaN (this
also covers series of length < 2).  NaN propagated through arithmetic and
`np.clip` is modelled by `Option.map`. -/

noncomputable section

open Classical in
/-- `np.mean` (sum divided by length; NumPy's NaN on the empty array never
arises in the claims, which all concern non-empty series). -/
def list_mean (l : List ℝ) : ℝ := l.sum / l.length

/-- Sum of squared deviations from the mean. -/
def sq_dev_sum (l : List ℝ) : ℝ := (l.map (fun x => (x - list_mean l) ^ 2)).sum

/-- `np.var` (population variance, ddof = 0). -/
def list_var (l : List ℝ) : ℝ := sq_dev_sum l / l.length

/-- `np.std` (square root of the population variance). -/
def list_std (l : List ℝ) : ℝ := Real.sqrt (list_var l)

/-- The `1e-10` guard used by the analysis service. -/
def EPS : ℝ := 1 / 10 ^ 10

open Classical in
/-- `np.corrcoef(x, y)[0, 1]`: `none` models the NaN produced when either
series has zero variance (the normalisation by `n - 1` in `np.cov` cancels in
the ratio). -/
def corrcoef (xs ys : List ℝ) : Option ℝ :=
  let dx := xs.map (fun a => a - list_mean xs)
  let dy := ys.map (fun b => b - list_mean ys)
  let sxx := (dx.map (fun a => a ^ 2)).sum
  let syy := (dy.map (fun b => b ^ 2)).sum
  let sxy := (List.zipWith (fun a b => a * b) dx dy).sum
  if sxx = 0 ∨ syy = 0 then none
  else some (sxy / Real.sqrt (sxx * syy))

/-- `np.clip(x, 0, 1)`. -/
def clip01 (x : ℝ) : ℝ := min (max x 0) 1

/-- The z-normalisation step of `_calculate_similarity`:
`(s - mean) / (std + 1e-10)`. -/
def z_normalize (l : List ℝ) : List ℝ :=
  l.map (fun x => (x - list_mean l) / (list_std l + EPS))

/-- `AnalysisService._calculate_similarity`: z-normalise both series, Pearson
correlation, map to `(corr+1)/2`, clip to `[0,1]`.  `none` is NumPy's NaN. -/
def calculate_similarity (s1 s2 : List ℝ) : Option ℝ :=
  (corrcoef (z_normalize s1) (z_normalize s2)).map (fun c => clip01 ((c + 1) / 2))

/-- `AnalysisService._detect_amplitude_deviation`. -/
def detect_amplitude_deviation (s1 s2 : List ℝ) : ℝ :=
  let mean_diff := |list_mean s1 - list_mean s2| / (|list_mean s2| + EPS)
  let std_diff := |list_std s1 - list_std s2| / (|list_std s2| + EPS)
  min ((mean_diff + std_diff) / 2) 1

/-- `AnalysisService._detect_shape_deviation`: `max(0, 1 - abs(corr))` on the
raw series, where `max` is Python's BUILTIN `max` with first argument `0`.
Every comparison with NaN is false, so when `np.corrcoef` is NaN (a constant
series), `max(0, 1 - abs(nan))` returns its first argument `0` — the NaN is
absorbed, not propagated. -/
def detect_shape_deviation (s1 s2 : List ℝ) : ℝ :=
  match corrcoef s1 s2 with
  | none => 0
  | some c => max 0 (1 - |c|)

/-- List indexing with 0 outside the range (used to express the summation
bounds of the discrete cross-correlation). -/
def getI (l : List ℝ) (i : ℤ) : ℝ :=
  if 0 ≤ i then l.getD i.toNat 0 else 0

/-- Entry `k` of `scipy.signal.correlate(x, y, mode="full")`:
`z[k] = Σ_l x[l] · y[l - k + len(y) - 1]`. -/
def cross_correlate_full (x y : List ℝ) (k : ℕ) : ℝ :=
  ((List.range x.length).map
    (fun l : ℕ => getI x (l : ℤ) * getI y ((l : ℤ) - k + y.length - 1))).sum

/-- `scipy.signal.correlate(x, y, mode="same")`: the centred slice of the full
cross-correlation, with the same length as `x`. -/
def cross_correlate_same (x y : List ℝ) : List ℝ :=
  (List.range x.length).map (fun i => cross_correlate_full x y (i + (y.length - 1) / 2))

open Classical in
/-- `np.argmax` helper: first index of the maximum, scanning left to right. -/
def argmax_go (l : List ℝ) (i : ℕ) (bi : ℕ) (bv : ℝ) : ℕ :=
  match l with
  | [] => bi
  | x :: xs => if bv < x then argmax_go xs (i + 1) i x else argmax_go xs (i + 1) bi bv

/-- `np.argmax`: first index of the maximum (`np.argmax` raises on an empty
array; 0 is returned here as an unused junk value). -/
def argmax_idx : List ℝ → ℕ
  | [] => 0
  | x :: xs => argmax_go xs 1 0 x

/-- `AnalysisService._detect_timing_deviation`: cross-correlate in "same"
mode, take the first-maximum lag relative to `len // 2`, normalise by 10% of
the series length, clip at 1. -/
def detect_timing_deviation (s1 s2 : List ℝ) : ℝ :=
  let correlation := cross_correlate_same s1 s2
  let lag : ℤ := (argmax_idx correlation : ℤ) - (s1.length / 2 : ℕ)
  let max_lag : ℝ := (s1.length : ℝ) * (0.1 : ℝ)
  min (|(lag : ℝ)| / max_lag) 1

/-- `np.linspace(0, 1, n)` (for `n = 1` NumPy yields `[0.0]`, matched here by
division by zero being zero). -/
def linspace01 (n : ℕ) : List ℝ :=
  (List.range n).map (fun i : ℕ => (i : ℝ) / ((n : ℝ) - 1))

open Classical in
/-- `np.interp(x, xp, fp)` at one point: clamp to the end values outside the
grid, linear interpolation between neighbouring grid points inside. -/
def interp_at : List ℝ → List ℝ → ℝ → ℝ
  | [_], y0 :: _, _ => y0
  | x0 :: x1 :: xs, y0 :: y1 :: ys, x =>
      if x ≤ x0 then y0
      else if x ≤ x1 then y0 + (y1 - y0) * (x - x0) / (x1 - x0)
      else interp_at (x1 :: xs) (y1 :: ys) x
  | _, _, _ => 0

/-- `AnalysisService._resample_series`: evaluate the series on a normalised
`[0,1]` index at `target_length` points by linear interpolation. -/
def resample_series (series : List ℝ) (target_length : ℕ) : List ℝ :=
  (linspace01 target_length).map (interp_at (linspace01 series.length) series)

/-- The length-equalisation step at the top of
`AnalysisService._compare_sensor_data`: when the lengths differ, the cycle's
series is resampled to the reference series' length and the reference series
is passed through unchanged. -/
def compare_inputs (sensor_values ref_values : List ℝ) : List ℝ × List ℝ :=
  if sensor_values.length ≠ ref_values.length then
    (resample_series sensor_values ref_values.length, ref_values)
  else (sensor_values, ref_values)

/-- `DeviationType` of the analysis schemas. -/
inductive DeviationType
  | amplitude
  | shape
  | timing
  | overall
deriving DecidableEq, Repr

/-- `DeviationDetail` (the fields the health computation reads). -/
structure DeviationDetail where
  sensor_name : String
  deviation_type : DeviationType
  severity : ℝ
  compared_to : String

open Classical in
/-- `AnalysisService._compare_sensor_data`: equalise lengths via
`compare_inputs`, compute the similarity, and report one deviation per
detector whose severity exceeds `0.2` (a NaN similarity correlation is never
reported, and a NaN shape correlation was already absorbed to severity 0). -/
def compare_sensor_data (sensor_data ref_data : List ℝ)
    (sensor_name compared_to : String) : List DeviationDetail × Option ℝ :=
  let p := compare_inputs sensor_data ref_data
  let sensor_values := p.1
  let ref_values := p.2
  let similarity := calculate_similarity sensor_values ref_values
  let amplitude_dev := detect_amplitude_deviation sensor_values ref_values
  let d1 : List DeviationDetail :=
    if (0.2 : ℝ) < amplitude_dev then
      [{ sensor_name := sensor_name, deviation_type := .amplitude,
         severity := amplitude_dev, compared_to := compared_to }]
    else []
  let shape_dev := detect_shape_deviation sensor_values ref_values
  let d2 : List DeviationDetail :=
    if (0.2 : ℝ) < shape_dev then
      [{ sensor_name := sensor_name, deviation_type := .shape,
         severity := shape_dev, compared_to := compared_to }]
    else []
  let timing_dev := detect_timing_deviation sensor_values ref_values
  let d3 : List DeviationDetail :=
    if (0.2 : ℝ) < timing_dev then
      [{ sensor_name := sensor_name, deviation_type := .timing,
         severity := timing_dev, compared_to := compared_to }]
    else []
  (d1 ++ d2 ++ d3, similarity)

end

/-- `_resample_series` always produces exactly `target_length` points. -/
theorem resample_series_length (series : List ℝ) (target_length : ℕ) :
    (resample_series series target_length).length = target_length := by
  unfold resample_series linspace01
  rw [List.length_map, List.length_map, List.length_range]

/-- Counterexample to C5: with a cycle series of length 3 and a reference
series of length 2, `_compare_sensor_data` hands the detectors arrays of
length 2 — the reference length — not the longer length 3; here the LONGER
series is resampled down to the shorter one. -/
theorem resample_target_counterexample :
    (compare_inputs [0, 1, 2] [0, 1]).1.length = 2 ∧
    (compare_inputs [0, 1, 2] [0, 1]).2.length = 2 ∧
    max ([0, 1, 2] : List ℝ).length ([0, 1] : List ℝ).length = 3 := by
  have h1 : (compare_inputs [0, 1, 2] [0, 1]) =
      (resample_series [0, 1, 2] 2, [0, 1]) := by
    unfold compare_inputs
    norm_num
  rw [h1]
  exact ⟨resample_series_length [0, 1, 2] 2, by norm_num, by norm_num⟩

/-- C5 (amended): when the two series' lengths differ, the cycle's series —
shorter or longer — is resampled by linear interpolation over a normalised
`[0,1]` index to the REFERENCE series' length, so the similarity and
deviation detectors always receive two arrays of the reference series'
length. -/
theorem compare_inputs_have_reference_length (sensor_data ref_data : List ℝ)
    (_hs : sensor_data ≠ []) :
    (compare_inputs sensor_data ref_data).1.length = ref_data.length ∧
    (compare_inputs sensor_data ref_data).2.length = ref_data.length := by
  unfold compare_inputs
  by_cases h : sensor_data.length = ref_data.length
  · simp [h]
  · simp [h, resample_series_length]

/-- Witness for C5 (amended): a length-2 cycle series against a length-3
reference is brought to length 3. -/
theorem compare_inputs_have_reference_length_witness :
    (compare_inputs [0, 1] [0, 1, 2]).1.length = ([0, 1, 2] : List ℝ).length ∧
    (compare_inputs [0, 1] [0, 1, 2]).2.length = ([0, 1, 2] : List ℝ).length :=
  compare_inputs_have_reference_length [0, 1] [0, 1, 2] (by simp)

/-! ### C6: severity ranges of the four correlation-family detectors -/

/-- A series all of whose values are equal (this includes series of length
0 and 1). -/
def IsConstantList (l : List ℝ) : Prop := ∀ a ∈ l, ∀ b ∈ l, a = b

theorem sum_map_pos (f : ℝ → ℝ) :
    ∀ l : List ℝ, (∀ x ∈ l, 0 ≤ f x) → (∃ x ∈ l, 0 < f x) →
      0 < (l.map f).sum := by
  intro l
  induction l with
  | nil =>
      rintro _ ⟨x, hx, _⟩
      cases hx
  | cons a t ih =>
      rintro hnn ⟨x, hx, hfx⟩
      simp only [List.map_cons, List.sum_cons]
      rcases List.mem_cons.mp hx with hx | hx
      · have ht : 0 ≤ (t.map f).sum :=
          List.sum_nonneg (fun y hy => by
            rcases List.mem_map.mp hy with ⟨z, hz, hzy⟩
            exact hzy ▸ hnn z (by simp [hz]))
        subst hx
        linarith
      · have ha : 0 ≤ f a := hnn a (by simp)
        have := ih (fun y hy => hnn y (by simp [hy])) ⟨x, hx, hfx⟩
        linarith

theorem exists_ne_mean {l : List ℝ} (h : ¬ IsConstantList l) :
    ∃ x ∈ l, x ≠ list_mean l := by
  unfold IsConstantList at h
  push_neg at h
  rcases h with ⟨a, ha, b, hb, hab⟩
  by_cases hm : a = list_mean l
  · exact ⟨b, hb, fun hbm => hab (hm.trans hbm.symm)⟩
  · exact ⟨a, ha, hm⟩

theorem sq_dev_sum_pos {l : List ℝ} (h : ¬ IsConstantList l) :
    0 < sq_dev_sum l := by
  rcases exists_ne_mean h with ⟨x, hx, hxm⟩
  unfold sq_dev_sum
  exact sum_map_pos _ l (fun y _ => sq_nonneg _)
    ⟨x, hx, sq_pos_of_ne_zero (sub_ne_zero.mpr hxm)⟩

theorem z_normalize_not_const {l : List ℝ} (h : ¬ IsConstantList l) :
    ¬ IsConstantList (z_normalize l) := by
  intro hz
  apply h
  intro a ha b hb
  have hd : 0 < list_std l + EPS := by
    have h1 : 0 ≤ list_std l := Real.sqrt_nonneg _
    have h2 : (0 : ℝ) < EPS := by norm_num [EPS]
    linarith
  have hmem : ∀ c ∈ l, (c - list_mean l) / (list_std l + EPS) ∈ z_normalize l := by
    intro c hc
    exact List.mem_map.mpr ⟨c, hc, rfl⟩
  have heq := hz _ (hmem a ha) _ (hmem b hb)
  have h2 := congrArg (fun t => t * (list_std l + EPS)) heq
  simp only [div_mul_cancel₀ _ (ne_of_gt hd)] at h2
  linarith

theorem sq_dev_sum_eq (l : List ℝ) :
    ((l.map (fun a => a - list_mean l)).map (fun a => a ^ 2)).sum = sq_dev_sum l := by
  rw [List.map_map]
  rfl

/-- When both series have positive squared-deviation sums, `np.corrcoef` is a
real number (no NaN). -/
theorem corrcoef_eq_some {xs ys : List ℝ} (hx : 0 < sq_dev_sum xs)
    (hy : 0 < sq_dev_sum ys) : ∃ c, corrcoef xs ys = some c := by
  simp only [corrcoef, sq_dev_sum_eq]
  rw [if_neg]
  · exact ⟨_, rfl⟩
  · push_neg
    exact ⟨ne_of_gt hx, ne_of_gt hy⟩

theorem clip01_nonneg (x : ℝ) : 0 ≤ clip01 x :=
  le_min (le_max_right x 0) zero_le_one

theorem clip01_le_one (x : ℝ) : clip01 x ≤ 1 :=
  min_le_right _ _

theorem detect_amplitude_deviation_bounds (s1 s2 : List ℝ) :
    0 ≤ detect_amplitude_deviation s1 s2 ∧ detect_amplitude_deviation s1 s2 ≤ 1 := by
  have hEPS : (0 : ℝ) < EPS := by norm_num [EPS]
  simp only [detect_amplitude_deviation]
  constructor
  · apply le_min _ zero_le_one
    have h1 : 0 ≤ |list_mean s1 - list_mean s2| / (|list_mean s2| + EPS) :=
      div_nonneg (abs_nonneg _) (by linarith [abs_nonneg (list_mean s2)])
    have h2 : 0 ≤ |list_std s1 - list_std s2| / (|list_std s2| + EPS) :=
      div_nonneg (abs_nonneg _) (by linarith [abs_nonneg (list_std s2)])
    linarith
  · exact min_le_right _ _

theorem detect_timing_deviation_bounds (s1 s2 : List ℝ) :
    0 ≤ detect_timing_deviation s1 s2 ∧ detect_timing_deviation s1 s2 ≤ 1 := by
  simp only [detect_timing_deviation]
  constructor
  · apply le_min _ zero_le_one
    exact div_nonneg (abs_nonneg _) (mul_nonneg (Nat.cast_nonneg _) (by norm_num))
  · exact min_le_right _ _

/-- Python's builtin `max(0, ·)` keeps the shape severity in `[0, 1]` for
every input, including the NaN-correlation (constant series) case, which it
absorbs to 0. -/
theorem detect_shape_deviation_bounds (s1 s2 : List ℝ) :
    0 ≤ detect_shape_deviation s1 s2 ∧ detect_shape_deviation s1 s2 ≤ 1 := by
  unfold detect_shape_deviation
  rcases corrcoef s1 s2 with _ | c
  · exact ⟨le_refl 0, zero_le_one⟩
  · exact ⟨le_max_left _ _, max_le zero_le_one (by linarith [abs_nonneg c])⟩

/-- Counterexample to C6: on the pair of (equal-length) constant series
`[1, 1]`, `[1, 1]`, the similarity detector does NOT return a value in
`[0, 1]`: `np.corrcoef` of a zero-variance series is NaN (`none`), which
propagates through `(corr+1)/2` and `np.clip`.  (The shape detector also sees
a NaN correlation at this input, but its builtin `max(0, ·)` absorbs the NaN
to the in-range value `0.0`.) -/
theorem similarity_nan_on_constant_series :
    calculate_similarity [1, 1] [1, 1] = none ∧
    detect_shape_deviation [1, 1] [1, 1] = 0 := by
  have hmean : list_mean [1, 1] = 1 := by norm_num [list_mean]
  have hz : z_normalize [1, 1] = [0, 0] := by
    simp [z_normalize, hmean]
  have hm0 : list_mean [0, 0] = 0 := by norm_num [list_mean]
  have hcz : corrcoef [0, 0] [0, 0] = none := by
    simp [corrcoef, hm0]
  have hc1 : corrcoef [1, 1] [1, 1] = none := by
    simp [corrcoef, hmean]
  constructor
  · simp [calculate_similarity, hz, hcz]
  · simp [detect_shape_deviation, hc1]

/-- C6 (amended): for every pair of equal-length series, the amplitude, shape
and timing severities are always in `[0, 1]` (shape returns `0` when the
correlation is NaN); the similarity detector returns a value in `[0, 1]`
whenever both series are non-constant (each contains two distinct values) —
on constant (zero-variance) series it returns NaN instead. -/
theorem detector_severities_unit_range (s1 s2 : List ℝ)
    (_hlen : s1.length = s2.length)
    (h1 : ¬ IsConstantList s1) (h2 : ¬ IsConstantList s2) :
    (∃ v, calculate_similarity s1 s2 = some v ∧ 0 ≤ v ∧ v ≤ 1) ∧
    (0 ≤ detect_shape_deviation s1 s2 ∧ detect_shape_deviation s1 s2 ≤ 1) ∧
    (0 ≤ detect_amplitude_deviation s1 s2 ∧ detect_amplitude_deviation s1 s2 ≤ 1) ∧
    (0 ≤ detect_timing_deviation s1 s2 ∧ detect_timing_deviation s1 s2 ≤ 1) := by
  refine ⟨?_, detect_shape_deviation_bounds s1 s2,
    detect_amplitude_deviation_bounds s1 s2, detect_timing_deviation_bounds s1 s2⟩
  obtain ⟨c, hc⟩ := corrcoef_eq_some
    (sq_dev_sum_pos (z_normalize_not_const h1))
    (sq_dev_sum_pos (z_normalize_not_const h2))
  exact ⟨clip01 ((c + 1) / 2), by simp [calculate_similarity, hc],
    clip01_nonneg _, clip01_le_one _⟩

/-- Witness for C6 (amended): the non-constant pair `[0, 1]`, `[0, 1]`. -/
theorem detector_severities_unit_range_witness :
    (∃ v, calculate_similarity [0, 1] [0, 1] = some v ∧ 0 ≤ v ∧ v ≤ 1) ∧
    (0 ≤ detect_shape_deviation [0, 1] [0, 1] ∧
      detect_shape_deviation [0, 1] [0, 1] ≤ 1) ∧
    (0 ≤ detect_amplitude_deviation [0, 1] [0, 1] ∧
      detect_amplitude_deviation [0, 1] [0, 1] ≤ 1) ∧
    (0 ≤ detect_timing_deviation [0, 1] [0, 1] ∧
      detect_timing_deviation [0, 1] [0, 1] ≤ 1) :=
  detector_severities_unit_range [0, 1] [0, 1] rfl
    (fun h => by have := h 0 (by simp) 1 (by simp); norm_num at this)
    (fun h => by have := h 0 (by simp) 1 (by simp); norm_num at this)

/-! ### C7: health scores -/

noncomputable section

/-- The type weights of `AnalysisService._calculate_health_score`. -/
def type_weight : DeviationType → ℝ
  | .amplitude => 0.8
  | .shape => 1
  | .timing => 0.6
  | .overall => 1

open Classical in
/-- `AnalysisService._calculate_health_score` (batch mode): `1.0` with no
deviations, else `max(0, 1 - weighted average severity)`. -/
def calculate_health_score (deviations : List DeviationDetail) : ℝ :=
  if deviations = [] then 1
  else
    let weighted_sum :=
      (deviations.map (fun d => d.severity * type_weight d.deviation_type)).sum
    let total_weight := (deviations.map (fun d => type_weight d.deviation_type)).sum
    let avg_deviation := if 0 < total_weight then weighted_sum / total_weight else 0
    max 0 (1 - avg_deviation)

/-- The per-sensor severity buckets of `deviation_analyzer.py`. -/
inductive SeverityBucket
  | critical
  | warning
  | normal
deriving DecidableEq, Repr

/-- The `severity_scores` mapping of `DeviationAnalyzer.analyze_cycle`. -/
def severity_score : SeverityBucket → ℝ
  | .critical => 0
  | .warning => 0.5
  | .normal => 1

open Classical in
/-- The streaming health score of `DeviationAnalyzer.analyze_cycle`: `100`
with no analyzed sensors, else the mean mapped severity scaled to 0–100. -/
def overall_health_score (sensor_severities : List SeverityBucket) : ℝ :=
  if sensor_severities = [] then 100
  else list_mean (sensor_severities.map severity_score) * 100

end

/-- C7: with no deviations the batch health score is exactly `1.0` and the
streaming health score is exactly `100`; the streaming health score is 100
times the mean of the per-sensor bucket scores (critical 0, warning 0.5,
normal 1), so when every analyzed sensor is critical it is exactly `0`. -/
theorem health_score_extremes (sensors : List SeverityBucket)
    (hne : sensors ≠ []) (hall : ∀ b ∈ sensors, b = SeverityBucket.critical) :
    calculate_health_score [] = 1 ∧
    overall_health_score [] = 100 ∧
    overall_health_score sensors =
      list_mean (sensors.map severity_score) * 100 ∧
    overall_health_score sensors = 0 := by
  refine ⟨by simp [calculate_health_score], by simp [overall_health_score],
    by simp [overall_health_score, hne], ?_⟩
  have hmap : sensors.map severity_score = sensors.map (fun _ => (0 : ℝ)) :=
    List.map_congr_left (fun b hb => by rw [hall b hb]; rfl)
  have hsum : (sensors.map severity_score).sum = 0 := by
    rw [hmap]
    simp
  simp [overall_health_score, hne, list_mean, hsum]

/-- Witness for C7: a single critical sensor gives streaming health 0. -/
theorem health_score_extremes_witness :
    calculate_health_score [] = 1 ∧
    overall_health_score [] = 100 ∧
    overall_health_score [SeverityBucket.critical] =
      list_mean ([SeverityBucket.critical].map severity_score) * 100 ∧
    overall_health_score [SeverityBucket.critical] = 0 :=
  health_score_extremes [SeverityBucket.critical] (by simp)
    (fun b hb => by simpa using hb)

/-! ### C9: root-cause analysis window -/

noncomputable section

open Classical in
/-- The analysis-window computation of `AnalysisService.analyze_root_cause`:
`stop_time = cycle.end_time`; a caller-supplied (truthy, i.e. non-zero)
`time_window_seconds` gives `max(start_time, stop_time - w)`; otherwise the
default window is the last 10% of `cycle.duration`. -/
def root_cause_window_start (start_time end_time duration : ℝ)
    (time_window_seconds : Option ℝ) : ℝ :=
  match time_window_seconds with
  | some w => if w ≠ 0 then max start_time (end_time - w)
              else end_time - duration * 0.1
  | none => end_time - duration * 0.1

end

/-- C9: for an abnormally terminated cycle with `end_time ≥ start_time` and
`duration = end_time - start_time`, the analysis window start never precedes
`cycle.start_time`, with or without a caller-supplied window. -/
theorem window_start_not_before_cycle_start (start_time end_time duration : ℝ)
    (tws : Option ℝ) (hord : start_time ≤ end_time)
    (hdur : duration = end_time - start_time) :
    start_time ≤ root_cause_window_start start_time end_time duration tws := by
  rcases tws with _ | w
  · simp only [root_cause_window_start]
    rw [hdur]
    nlinarith
  · simp only [root_cause_window_start]
    by_cases hw : w ≠ 0
    · rw [if_pos hw]
      exact le_max_left _ _
    · rw [if_neg hw, hdur]
      nlinarith

/-- Witness for C9: both the default window and a supplied window on a
concrete cycle `[0, 10]`. -/
theorem window_start_not_before_cycle_start_witness :
    (0 : ℝ) ≤ root_cause_window_start 0 10 10 none ∧
    (0 : ℝ) ≤ root_cause_window_start 0 10 10 (some 3) :=
  ⟨window_start_not_before_cycle_start 0 10 10 none (by norm_num) (by norm_num),
   window_start_not_before_cycle_start 0 10 10 (some 3) (by norm_num) (by norm_num)⟩

/-! ## Distance-family detectors (`backend/services/deviation_analyzer.py`) -/

noncomputable section

/-- `np.min` on a non-empty array (0 is junk for the empty array, which the
guarded source never reaches). -/
def list_min : List ℝ → ℝ
  | [] => 0
  | x :: xs => xs.foldl min x

/-- `np.max` on a non-empty array (same remark). -/
def list_max : List ℝ → ℝ
  | [] => 0
  | x :: xs => xs.foldl max x

open Classical in
/-- `DeviationAnalyzer.normalize_signal`: min-max normalisation to `[0, 1]`;
the empty signal is returned as is, a flat signal becomes `np.zeros_like`. -/
def normalize_signal (values : List ℝ) : List ℝ :=
  if values = [] then values
  else
    let min_val := list_min values
    let max_val := list_max values
    if max_val = min_val then values.map (fun _ => 0)
    else values.map (fun v => (v - min_val) / (max_val - min_val))

/-- `scipy.spatial.distance.euclidean`. -/
def euclidean_dist (a b : List ℝ) : ℝ :=
  Real.sqrt ((List.zipWith (fun u v => (u - v) ^ 2) a b).sum)

/-- `DeviationAnalyzer.euclidean_distance`: truncate both signals to the
common length, min-max normalise each, Euclidean distance. -/
def euclidean_distance (completed_values reference_values : List ℝ) : ℝ :=
  let min_len := min completed_values.length reference_values.length
  let c := completed_values.take min_len
  let r := reference_values.take min_len
  euclidean_dist (normalize_signal c) (normalize_signal r)

open Classical in
/-- The length-equalisation step of `DeviationAnalyzer.dtw_distance`:
`scipy.interpolate.interp1d(..., kind="linear", fill_value="extrapolate")` on
normalised `[0, 1]` indices, evaluated at `linspace(0, 1, max(n, m))`.  Since
the evaluation grid lies inside `[0, 1]`, whose endpoints belong to both
source grids, extrapolation never occurs and this coincides with linear
interpolation (`resample_series`). -/
def dtw_inputs (completed_values reference_values : List ℝ) : List ℝ × List ℝ :=
  if completed_values.length ≠ reference_values.length then
    let t := max completed_values.length reference_values.length
    (resample_series completed_values t, resample_series reference_values t)
  else (completed_values, reference_values)

/-- The unit substitution cost `|a[i-1] - b[j-1]|` of the DTW recurrence, as
an extended real. -/
def dtw_cost (a b : List ℝ) (i j : ℕ) : EReal :=
  ((|a.getD i 0 - b.getD j 0| : ℝ) : EReal)

/-- The DTW dynamic-programming matrix of `DeviationAnalyzer.dtw_distance`:
initialised to `np.inf` (`⊤`) except `dtw_matrix[0, 0] = 0`, then
`dtw_matrix[i, j] = cost + min(dtw_matrix[i-1, j], dtw_matrix[i, j-1],
dtw_matrix[i-1, j-1])`. -/
def dtw_matrix (a b : List ℝ) : ℕ → ℕ → EReal
  | 0, 0 => 0
  | _ + 1, 0 => ⊤
  | 0, _ + 1 => ⊤
  | i + 1, j + 1 =>
      dtw_cost a b i j +
        min (dtw_matrix a b i (j + 1))
          (min (dtw_matrix a b (i + 1) j) (dtw_matrix a b i j))
termination_by i j => (i, j)

/-- `DeviationAnalyzer.dtw_distance`: equalise lengths by interpolation,
min-max normalise, run the DTW recurrence, return `dtw_matrix[n, m]`. -/
def dtw_distance (completed_values reference_values : List ℝ) : EReal :=
  let p := dtw_inputs completed_values reference_values
  let completed_norm := normalize_signal p.1
  let reference_norm := normalize_signal p.2
  dtw_matrix completed_norm reference_norm completed_norm.length reference_norm.length

end

theorem dtw_matrix_nonneg (a b : List ℝ) : ∀ i j, (0 : EReal) ≤ dtw_matrix a b i j := by
  intro i
  induction i with
  | zero =>
      intro j
      cases j with
      | zero => rw [dtw_matrix]
      | succ j => rw [dtw_matrix]; exact le_top
  | succ i ihi =>
      intro j
      induction j with
      | zero => rw [dtw_matrix]; exact le_top
      | succ j ihj =>
          rw [dtw_matrix]
          refine add_nonneg ?_ (le_min (ihi (j + 1)) (le_min ihj (ihi j)))
          exact EReal.coe_nonneg.mpr (abs_nonneg _)

theorem dtw_matrix_diag_self (a : List ℝ) : ∀ k, dtw_matrix a a k k = 0 := by
  intro k
  induction k with
  | zero => rw [dtw_matrix]
  | succ k ih =>
      refine le_antisymm ?_ (dtw_matrix_nonneg a a (k + 1) (k + 1))
      rw [dtw_matrix]
      have hcost : dtw_cost a a k k = 0 := by
        simp [dtw_cost]
      rw [hcost, zero_add]
      calc min (dtw_matrix a a k (k + 1))
            (min (dtw_matrix a a (k + 1) k) (dtw_matrix a a k k)) ≤
          min (dtw_matrix a a (k + 1) k) (dtw_matrix a a k k) := min_le_right _ _
        _ ≤ dtw_matrix a a k k := min_le_right _ _
        _ = 0 := ih

theorem zip_sq_sub_self_sum (l : List ℝ) :
    (List.zipWith (fun u v => (u - v) ^ 2) l l).sum = 0 := by
  induction l with
  | nil => simp
  | cons x xs ih => simp [ih]

/-- C8: the Euclidean and DTW distances of any series with itself are 0, and
both distances are non-negative for every pair of input series (the DTW value
lives in the extended reals, where the `np.inf` of an empty-versus-non-empty
comparison is also non-negative). -/
theorem distances_self_zero_and_nonneg (xs ys : List ℝ) :
    euclidean_distance xs xs = 0 ∧ dtw_distance xs xs = 0 ∧
    0 ≤ euclidean_distance xs ys ∧ (0 : EReal) ≤ dtw_distance xs ys := by
  refine ⟨?_, ?_, Real.sqrt_nonneg _, dtw_matrix_nonneg _ _ _ _⟩
  · simp only [euclidean_distance, euclidean_dist, zip_sq_sub_self_sum]
    exact Real.sqrt_zero
  · simp only [dtw_distance, dtw_inputs]
    rw [if_neg (by simp)]
    exact dtw_matrix_diag_self _ _

/-! ### `scipy.signal.savgol_filter(values, 11, polyorder=3)`

A Savitzky–Golay filter is, by definition, a local least-squares polynomial
fit evaluated pointwise: for each output position the cubic least-squares fit
through the 11 surrounding samples is evaluated at that position.  With the
default `mode="interp"`, SciPy fits the first (respectively last) 11 samples
once and evaluates that fit at the first (respectively last) 5 positions; an
interior position is the centre of its own window.  The least-squares fit is
expressed by the normal equations `coeffs = (AᵀA)⁻¹ Aᵀ y` for the 11×4
Vandermonde design matrix `A` over abscissae `0..10` (fitted values are
invariant under a common shift of the abscissae, so centring the interior
window at 0, as SciPy does, gives the same smoothed values as fitting over
`0..10` and evaluating at 5). -/

noncomputable section

/-- The 11×4 Vandermonde design matrix of a cubic fit over abscissae 0..10. -/
def vand : Matrix (Fin 11) (Fin 4) ℝ := fun i j => ((i : ℕ) : ℝ) ^ (j : ℕ)

/-- The Gram matrix `AᵀA` of the normal equations. -/
def vandM : Matrix (Fin 4) (Fin 4) ℝ := vand.transpose * vand

/-- Least-squares cubic coefficients through 11 window values (the normal
equations `(AᵀA)⁻¹ Aᵀ y` of `np.polyfit(range(11), y, 3)`). -/
def polyfit_coeffs (ys : Fin 11 → ℝ) : Fin 4 → ℝ :=
  vandM⁻¹.mulVec (vand.transpose.mulVec ys)

/-- Evaluate the fitted cubic at abscissa `t`. -/
def polyfit_eval (ys : Fin 11 → ℝ) (t : ℝ) : ℝ :=
  ∑ j : Fin 4, polyfit_coeffs ys j * t ^ (j : ℕ)

/-- The 11 samples of `x` starting at index `s`. -/
def window_at (x : List ℝ) (s : ℕ) : Fin 11 → ℝ := fun k => x.getD (s + (k : ℕ)) 0

open Classical in
/-- One output sample of `savgol_filter(x, 11, 3)` (`mode="interp"`): the
first five and last five positions are evaluated on the edge fits, interior
positions at the centre of their own window. -/
def savgol_at (x : List ℝ) (i : ℕ) : ℝ :=
  let n := x.length
  if i < 5 then polyfit_eval (window_at x 0) (i : ℝ)
  else if n ≤ i + 5 then polyfit_eval (window_at x (n - 11)) (((i - (n - 11) : ℕ) : ℝ))
  else polyfit_eval (window_at x (i - 5)) 5

/-- `scipy.signal.savgol_filter(x, 11, 3)` for `len(x) ≥ 11`. -/
def savgol_filter (x : List ℝ) : List ℝ := (List.range x.length).map (savgol_at x)

open Classical in
/-- `DeviationAnalyzer.smooth_signal`: skip smoothing when the signal is
shorter than the window, else apply the Savitzky–Golay filter. -/
def smooth_signal (values : List ℝ) : List ℝ :=
  if values.length < 11 then values else savgol_filter values

end

theorem vandM_eq :
    vandM = !![11, 55, 385, 3025;
               55, 385, 3025, 25333;
               385, 3025, 25333, 220825;
               3025, 25333, 220825, 1978405] := by
  ext i j
  fin_cases i <;> fin_cases j <;>
    simp [vandM, vand, Matrix.mul_apply, Matrix.transpose_apply, Fin.sum_univ_succ] <;>
    norm_num [show ((1 : Fin 4) : ℕ) = 1 from rfl, show ((2 : Fin 4) : ℕ) = 2 from rfl,
      show ((3 : Fin 4) : ℕ) = 3 from rfl]

/-- The exact inverse of the Gram matrix (computed by Gaussian elimination
over the rationals; verified below by multiplying out). -/
noncomputable def vandM_inv : Matrix (Fin 4) (Fin 4) ℝ :=
  !![113/143, -475/858, 15/143, -5/858;
     -475/858, 230/351, -775/5148, 1/108;
     15/143, -775/5148, 43/1144, -25/10296;
     -5/858, 1/108, -25/10296, 5/30888]

theorem vandM_inv_mul_vandM : vandM_inv * vandM = 1 := by
  rw [vandM_eq]
  ext i j
  fin_cases i <;> fin_cases j <;>
    simp [vandM_inv, Matrix.mul_apply, Fin.sum_univ_succ] <;> norm_num

theorem vandM_mul_vandM_inv : vandM * vandM_inv = 1 := by
  rw [vandM_eq]
  ext i j
  fin_cases i <;> fin_cases j <;>
    simp [vandM_inv, Matrix.mul_apply, Fin.sum_univ_succ] <;> norm_num

noncomputable instance : Invertible vandM :=
  ⟨vandM_inv, vandM_inv_mul_vandM, vandM_mul_vandM_inv⟩

/-- The coefficient vector `(c, 0, 0, 0)`. -/
def const_coeffs (c : ℝ) : Fin 4 → ℝ := fun j => if j = 0 then c else 0

theorem vand_mulVec_const (c : ℝ) :
    vand.mulVec (const_coeffs c) = fun _ => c := by
  funext i
  simp [Matrix.mulVec, Matrix.dotProduct, Fin.sum_univ_four, vand, const_coeffs]

/-- A constant window is fitted exactly by the constant cubic; least squares
returns it (the Gram matrix is invertible). -/
theorem polyfit_coeffs_const (c : ℝ) :
    polyfit_coeffs (fun _ => c) = const_coeffs c := by
  have h1 : (fun _ : Fin 11 => c) = vand.mulVec (const_coeffs c) :=
    (vand_mulVec_const c).symm
  rw [polyfit_coeffs, h1, Matrix.mulVec_mulVec, Matrix.mulVec_mulVec, Matrix.mul_assoc]
  rw [show vand.transpose * vand = vandM from rfl]
  rw [Matrix.inv_mul_of_invertible, Matrix.one_mulVec]

theorem polyfit_eval_const (c : ℝ) (t : ℝ) : polyfit_eval (fun _ => c) t = c := by
  rw [polyfit_eval]
  simp [polyfit_coeffs_const, const_coeffs, Fin.sum_univ_four]

theorem getD_replicate_of_lt {n i : ℕ} {c : ℝ} (h : i < n) :
    (List.replicate n c).getD i 0 = c := by
  rw [List.getD_eq_getElem?_getD, List.getElem?_eq_getElem (by simpa using h)]
  simp

theorem window_at_replicate {n : ℕ} (c : ℝ) {s : ℕ} (h : s + 10 < n) :
    window_at (List.replicate n c) s = fun _ => c := by
  funext k
  have hk : (k : ℕ) ≤ 10 := Nat.lt_succ_iff.mp k.isLt
  exact getD_replicate_of_lt (by omega)

theorem savgol_at_replicate {n : ℕ} (c : ℝ) {i : ℕ} (h11 : 11 ≤ n) (_hi : i < n) :
    savgol_at (List.replicate n c) i = c := by
  simp only [savgol_at, List.length_replicate]
  by_cases h5 : i < 5
  · rw [if_pos h5, window_at_replicate c (by omega), polyfit_eval_const]
  · rw [if_neg h5]
    by_cases hedge : n ≤ i + 5
    · rw [if_pos hedge, window_at_replicate c (by omega), polyfit_eval_const]
    · rw [if_neg hedge, window_at_replicate c (by omega), polyfit_eval_const]

/-- The Savitzky–Golay smoothing step maps a constant signal to itself (both
for signals shorter than the window, which are passed through, and for longer
signals, where the cubic fit of constant data is that constant). -/
theorem smooth_signal_replicate (n : ℕ) (c : ℝ) :
    smooth_signal (List.replicate n c) = List.replicate n c := by
  by_cases h : n < 11
  · simp [smooth_signal, h]
  · have h11 : 11 ≤ n := by omega
    have hpt : ∀ i ∈ List.range n, savgol_at (List.replicate n c) i = c :=
      fun i hi => savgol_at_replicate c h11 (List.mem_range.mp hi)
    simp only [smooth_signal, List.length_replicate, if_neg h, savgol_filter]
    rw [List.map_congr_left hpt, List.map_const', List.length_range]

/-! ### C10: constant series -/

theorem foldl_min_replicate (c : ℝ) : ∀ k, (List.replicate k c).foldl min c = c := by
  intro k
  induction k with
  | zero => rfl
  | succ k ih => simpa [List.replicate_succ, min_self] using ih

theorem foldl_max_replicate (c : ℝ) : ∀ k, (List.replicate k c).foldl max c = c := by
  intro k
  induction k with
  | zero => rfl
  | succ k ih => simpa [List.replicate_succ, max_self] using ih

theorem list_min_replicate {k : ℕ} (c : ℝ) : list_min (List.replicate (k + 1) c) = c := by
  rw [List.replicate_succ]
  exact foldl_min_replicate c k

theorem list_max_replicate {k : ℕ} (c : ℝ) : list_max (List.replicate (k + 1) c) = c := by
  rw [List.replicate_succ]
  exact foldl_max_replicate c k

/-- Min-max normalisation sends every constant series to the all-zeros
series. -/
theorem normalize_signal_replicate (n : ℕ) (c : ℝ) :
    normalize_signal (List.replicate n c) = List.replicate n 0 := by
  cases n with
  | zero => simp [normalize_signal]
  | succ k =>
      have hne : List.replicate (k + 1) c ≠ [] := by simp
      simp only [normalize_signal, if_neg hne]
      rw [if_pos (by rw [list_max_replicate, list_min_replicate])]
      rw [List.map_const', List.length_replicate]

theorem euclidean_distance_replicate (n : ℕ) (c1 c2 : ℝ) :
    euclidean_distance (List.replicate n c1) (List.replicate n c2) = 0 := by
  simp only [euclidean_distance, List.length_replicate, min_self, List.take_replicate,
    normalize_signal_replicate, euclidean_dist, zip_sq_sub_self_sum]
  exact Real.sqrt_zero

theorem dtw_distance_replicate (n : ℕ) (c1 c2 : ℝ) :
    dtw_distance (List.replicate n c1) (List.replicate n c2) = 0 := by
  simp only [dtw_distance, dtw_inputs, List.length_replicate]
  rw [if_neg (by simp), normalize_signal_replicate, normalize_signal_replicate]
  exact dtw_matrix_diag_self _ _

/-- `SensorDeviation` dataclass (the fields `analyze_sensor` fills;
`peak_deviation_time` is always `None` in the source and is omitted). -/
structure SensorDeviation where
  sensor_id : String
  sensor_name : String
  euclidean_dist : ℝ
  dtw_dist : EReal
  max_deviation : ℝ
  mean_deviation : ℝ
  contribution_rank : ℕ := 0
  severity : SeverityBucket

noncomputable section

/-- `DeviationAnalyzer.compute_deviation_metrics` (the two fields consumed by
`analyze_sensor`): truncate to the common length and take max and mean of the
pointwise absolute deviations. -/
def compute_deviation_metrics (completed_values reference_values : List ℝ) : ℝ × ℝ :=
  let min_len := min completed_values.length reference_values.length
  let c := completed_values.take min_len
  let r := reference_values.take min_len
  let deviations := List.zipWith (fun u v => |u - v|) c r
  (list_max deviations, list_mean deviations)

open Classical in
/-- `DeviationAnalyzer.analyze_sensor`: smooth both signals, compute the two
distances, combine them as `0.6·(euclidean/10) + 0.4·(dtw/100)` capped at 1
(in the extended reals, since the DTW value of degenerate inputs is
`np.inf`), and bucket against the thresholds 0.7 (critical) and 0.5
(warning). -/
def analyze_sensor (sensor_id sensor_name : String)
    (completed_values reference_values : List ℝ) : SensorDeviation :=
  let completed_smooth := smooth_signal completed_values
  let reference_smooth := smooth_signal reference_values
  let euclidean_d := euclidean_distance completed_smooth reference_smooth
  let dtw_d := dtw_distance completed_smooth reference_smooth
  let metrics := compute_deviation_metrics completed_values reference_values
  let combined_score : EReal :=
    min (((0.6 * (euclidean_d / 10) : ℝ) : EReal) +
      ((0.4 : ℝ) : EReal) * (dtw_d / ((100 : ℝ) : EReal))) 1
  let severity : SeverityBucket :=
    if ((0.7 : ℝ) : EReal) < combined_score then .critical
    else if ((0.5 : ℝ) : EReal) < combined_score then .warning
    else .normal
  { sensor_id := sensor_id, sensor_name := sensor_name,
    euclidean_dist := euclidean_d, dtw_dist := dtw_d,
    max_deviation := metrics.1, mean_deviation := metrics.2,
    severity := severity }

end

theorem analyze_sensor_replicate_normal (n : ℕ) (c1 c2 : ℝ)
    (sid sname : String) :
    (analyze_sensor sid sname (List.replicate n c1) (List.replicate n c2)).severity =
      SeverityBucket.normal := by
  simp only [analyze_sensor, smooth_signal_replicate, euclidean_distance_replicate,
    dtw_distance_replicate]
  have hc : min ((((0.6 * ((0 : ℝ) / 10) : ℝ)) : EReal) +
      ((0.4 : ℝ) : EReal) * ((0 : EReal) / ((100 : ℝ) : EReal))) 1 = (0 : EReal) := by
    have h1 : (((0.6 * ((0 : ℝ) / 10) : ℝ)) : EReal) = 0 := by norm_num
    have h2 : ((0.4 : ℝ) : EReal) * ((0 : EReal) / ((100 : ℝ) : EReal)) = 0 := by
      rw [EReal.div_eq_inv_mul]
      simp
    rw [h1, h2, add_zero]
    simp
  rw [hc]
  rw [if_neg (by
    rw [← EReal.coe_zero]
    intro hcon
    exact absurd (EReal.coe_lt_coe_iff.mp hcon) (by norm_num))]
  rw [if_neg (by
    rw [← EReal.coe_zero]
    intro hcon
    exact absurd (EReal.coe_lt_coe_iff.mp hcon) (by norm_num))]

/-- C10: min-max normalisation maps every constant series to the all-zeros
series; consequently, for two equal-length constant series with arbitrary
(possibly very different) constant values, the Euclidean and DTW distances
are both 0 and `analyze_sensor` buckets the sensor as "normal". -/
theorem constant_series_distances_zero_and_normal (n : ℕ) (c1 c2 : ℝ) :
    normalize_signal (List.replicate n c1) = List.replicate n 0 ∧
    euclidean_distance (List.replicate n c1) (List.replicate n c2) = 0 ∧
    dtw_distance (List.replicate n c1) (List.replicate n c2) = 0 ∧
    (analyze_sensor "s" "s" (List.replicate n c1) (List.replicate n c2)).severity =
      SeverityBucket.normal :=
  ⟨normalize_signal_replicate n c1, euclidean_distance_replicate n c1 c2,
   dtw_distance_replicate n c1 c2, analyze_sensor_replicate_normal n c1 c2 "s" "s"⟩

end VerTac
